import Mathlib

/-!
Verification development for the oss-url-converter service
(source files: app.py and oss_client.py).

The Python code is shallowly embedded:
* Python strings are lists of characters (`Str`);
* Python dictionaries become structures or association lists;
* a raised Python exception becomes `Except.error` carrying the message;
* thread scheduling (the completion order of the worker pool) becomes an
  explicit permutation parameter;
* network and storage back ends (HTTP GET, the S3 client) are opaque
  capabilities passed in as function parameters, mirroring the spec, which
  treats them as external collaborators.

Recursive string scans are written with an explicit fuel argument equal to
the length of the scanned string; every scan consumes at least one
character per step, so the fuel never runs out on the real argument and
the definitions stay structurally recursive (hence kernel-evaluable).
-/

namespace OssConverter

/-- Python strings are embedded as lists of characters. -/
abbrev Str := List Char

/-- Embed a Lean string literal as a `Str`. -/
def str (s : String) : Str := s.data

/-- The double-quote character, written via its code point. -/
def dquote : Char := Char.ofNat 34

/-- The single-quote character, written via its code point. -/
def squote : Char := Char.ofNat 39

/-- Whitespace characters: the ASCII content of the regex character class
backslash-s and of Python str.strip (the unicode extras play no role in any
claim). -/
def isSpaceChar (c : Char) : Bool :=
  c == ' ' || c == Char.ofNat 9 || c == Char.ofNat 10 || c == Char.ofNat 13 ||
  c == Char.ofNat 11 || c == Char.ofNat 12

/-- Substring test: does `pat` occur inside `s`?  This embeds the Python
expression `pat in s`; in particular the empty pattern occurs in every
string, as in Python. -/
def occurs (pat : Str) : Str → Bool
  | [] => pat.isPrefixOf []
  | c :: cs => pat.isPrefixOf (c :: cs) || occurs pat cs

/-- Characters admitted by the body of the URL regular expression in
`extract_urls` (oss_client.py line 182): everything except whitespace and
the characters excluded by the class in the pattern. -/
def urlChar (c : Char) : Bool :=
  !(isSpaceChar c) && !(c == '<') && !(c == '>') && !(c == dquote) &&
  !(c == squote) && !(c == ')') && !(c == ']')

/-- Match the scheme part of the pattern at the head of the string:
the literal `http`, an optional `s` (tried greedily, as the regex engine
does), then `://`.  Returns the matched scheme and the remainder. -/
def splitScheme : Str → Option (Str × Str)
  | 'h' :: 't' :: 't' :: 'p' :: 's' :: ':' :: '/' :: '/' :: rest => some (str "https://", rest)
  | 'h' :: 't' :: 't' :: 'p' :: ':' :: '/' :: '/' :: rest => some (str "http://", rest)
  | _ => none

/-- Attempt the URL regex at the head of the string.  The body class admits
`.`, so the greedy `[^...]+` already swallows every admissible character
and the trailing `(?:\.[^...]+)*` group of the pattern matches the empty
string; the whole match is the scheme followed by the maximal run of
admissible characters, and it fails when that run is empty. -/
def matchUrlAt (s : Str) : Option (Str × Str) :=
  match splitScheme s with
  | none => none
  | some (scheme, rest) =>
    let body := rest.takeWhile urlChar
    if body.isEmpty then none else some (scheme ++ body, rest.drop body.length)

/-- Left-to-right non-overlapping scan of re.findall: try the pattern at
every position, and resume after the end of each match.  Each step consumes
at least one character, so fuel equal to the string length suffices. -/
def findUrlsAux : Nat → Str → List Str
  | 0, _ => []
  | _ + 1, [] => []
  | fuel + 1, c :: cs =>
    match matchUrlAt (c :: cs) with
    | some (url, rest) => url :: findUrlsAux fuel rest
    | none => findUrlsAux fuel cs

/-- All matches of the URL pattern in the text, in match order
(re.findall in oss_client.py line 183). -/
def findUrls (s : Str) : List Str := findUrlsAux s.length s

/-- The deduplication loop of `extract_urls` (oss_client.py lines 185-190):
a `seen` accumulator and an output list that keeps the first occurrence of
every URL. -/
def dedupSeen (seen : List Str) : List Str → List Str
  | [] => []
  | u :: us => if u ∈ seen then dedupSeen seen us else u :: dedupSeen (u :: seen) us

/-- OSSClient.extract_urls (oss_client.py lines 175-191): find all pattern
matches, then deduplicate preserving first-seen order. -/
def extract_urls (text : Str) : List Str := dedupSeen [] (findUrls text)

/-- Modelled from the spec: deduplication that keeps each element at its
first occurrence and drops every later duplicate.  This is the statement
of first-occurrence-order deduplication against which the code is
compared; fuel as above. -/
def firstOccurrenceDedupF : Nat → List Str → List Str
  | 0, l => l
  | _ + 1, [] => []
  | fuel + 1, x :: xs => x :: firstOccurrenceDedupF fuel (xs.filter (fun y => y != x))

/-- Modelled from the spec: first-occurrence-preserving deduplication. -/
def firstOccurrenceDedup (l : List Str) : List Str := firstOccurrenceDedupF l.length l

theorem firstOccurrenceDedupF_fuel_succ :
    ∀ (fuel : Nat) (l : List Str), l.length ≤ fuel →
      firstOccurrenceDedupF (fuel + 1) l = firstOccurrenceDedupF fuel l := by
  intro fuel
  induction fuel with
  | zero =>
    intro l hl
    have : l = [] := List.length_eq_zero.mp (Nat.le_zero.mp hl)
    subst this
    rfl
  | succ f ih =>
    intro l hl
    match l with
    | [] => rfl
    | x :: xs =>
      have hxs : xs.length ≤ f := by
        simp only [List.length_cons] at hl
        omega
      have hfil : (xs.filter (fun y => y != x)).length ≤ f :=
        Nat.le_trans (List.length_filter_le _ _) hxs
      simp only [firstOccurrenceDedupF]
      rw [ih _ hfil]

theorem dedupSeen_eq_firstOccF :
    ∀ (l : List Str) (seen : List Str) (fuel : Nat), l.length ≤ fuel →
      dedupSeen seen l = firstOccurrenceDedupF fuel (l.filter (fun y => decide (y ∉ seen))) := by
  intro l
  induction l with
  | nil =>
    intro seen fuel _
    match fuel with
    | 0 => rfl
    | _ + 1 => rfl
  | cons u us ih =>
    intro seen fuel hl
    match fuel with
    | 0 => simp at hl
    | f + 1 =>
      have hus : us.length ≤ f := by
        simp only [List.length_cons] at hl
        omega
      by_cases hu : u ∈ seen
      · have hd : decide (u ∉ seen) = false := by simp [hu]
        simp only [dedupSeen, if_pos hu, List.filter_cons, hd]
        rw [if_neg (show ¬(false = true) by decide)]
        have hlen : (us.filter (fun y => decide (y ∉ seen))).length ≤ f :=
          Nat.le_trans (List.length_filter_le _ _) hus
        rw [firstOccurrenceDedupF_fuel_succ f _ hlen]
        exact ih seen f hus
      · have hd : decide (u ∉ seen) = true := by simp [hu]
        simp only [dedupSeen, if_neg hu, List.filter_cons, hd]
        rw [if_pos trivial]
        simp only [firstOccurrenceDedupF]
        have hcomb : (List.filter (fun y => decide (y ∉ seen)) us).filter (fun y => y != u)
            = us.filter (fun y => decide (y ∉ u :: seen)) := by
          rw [List.filter_filter]
          apply List.filter_congr
          intro y _
          by_cases h1 : y = u <;> by_cases h2 : y ∈ seen <;>
            simp [h1, h2, List.mem_cons]
        rw [hcomb]
        exact congrArg _ (ih (u :: seen) f hus)

theorem dedupSeen_mem :
    ∀ (l : List Str) (seen : List Str) (x : Str),
      x ∈ dedupSeen seen l ↔ x ∈ l ∧ x ∉ seen := by
  intro l
  induction l with
  | nil => intro seen x; simp [dedupSeen]
  | cons u us ih =>
    intro seen x
    by_cases hu : u ∈ seen
    · simp only [dedupSeen, if_pos hu, ih, List.mem_cons]
      constructor
      · rintro ⟨h1, h2⟩; exact ⟨Or.inr h1, h2⟩
      · rintro ⟨h1 | h1, h2⟩
        · exact absurd (h1 ▸ hu) h2
        · exact ⟨h1, h2⟩
    · simp only [dedupSeen, if_neg hu, List.mem_cons, ih]
      constructor
      · rintro (rfl | ⟨h1, h2⟩)
        · exact ⟨Or.inl rfl, hu⟩
        · refine ⟨Or.inr h1, fun hs => h2 (Or.inr hs)⟩
      · rintro ⟨rfl | h1, h2⟩
        · exact Or.inl rfl
        · by_cases hxu : x = u
          · exact Or.inl hxu
          · exact Or.inr ⟨h1, by simp [List.mem_cons, hxu, h2]⟩

theorem dedupSeen_nodup :
    ∀ (l : List Str) (seen : List Str), (dedupSeen seen l).Nodup := by
  intro l
  induction l with
  | nil => intro seen; simp [dedupSeen]
  | cons u us ih =>
    intro seen
    by_cases hu : u ∈ seen
    · simpa [dedupSeen, if_pos hu] using ih seen
    · simp only [dedupSeen, if_neg hu, List.nodup_cons]
      refine ⟨fun hmem => ?_, ih (u :: seen)⟩
      exact ((dedupSeen_mem us (u :: seen) u).mp hmem).2 (List.mem_cons_self u seen)

theorem extract_urls_eq_firstOcc (text : Str) :
    extract_urls text = firstOccurrenceDedup (findUrls text) := by
  have h := dedupSeen_eq_firstOccF (findUrls text) [] (findUrls text).length (Nat.le_refl _)
  have hfil : (findUrls text).filter (fun y => decide (y ∉ ([] : List Str)))
      = findUrls text := by
    apply List.filter_eq_self.mpr
    intro a _
    simp
  rw [hfil] at h
  exact h

/-- Claim C3: extract_urls is a pure function that returns the regex
matches of the text deduplicated while preserving first-occurrence order
(so the result never contains duplicates), and it returns the empty list
on the empty text. -/
theorem c3_extract_urls_dedup_first_order :
    extract_urls (str "") = [] ∧
    (∀ text : Str, (extract_urls text).Nodup) ∧
    (∀ text : Str, extract_urls text = firstOccurrenceDedup (findUrls text)) ∧
    (∀ text u, u ∈ extract_urls text ↔ u ∈ findUrls text) := by
  refine ⟨rfl, fun text => dedupSeen_nodup _ _, fun text => extract_urls_eq_firstOcc text,
    fun text u => ?_⟩
  rw [show extract_urls text = dedupSeen [] (findUrls text) from rfl, dedupSeen_mem]
  simp

/-- Python str.replace (all occurrences, leftmost first, skipping past each
match).  The code only calls it with a non-empty pattern (a matched URL);
the `pat ≠ []` test inside the scan keeps the recursion honest rather than
changing any call that occurs in the program.  Fuel as above. -/
def replaceAllF (pat rep : Str) : Nat → Str → Str
  | 0, s => s
  | _ + 1, [] => []
  | fuel + 1, c :: cs =>
    if pat ≠ [] ∧ pat.isPrefixOf (c :: cs) then
      rep ++ replaceAllF pat rep fuel (List.drop pat.length (c :: cs))
    else
      c :: replaceAllF pat rep fuel cs

/-- Python str.replace, fuelled by the scanned length. -/
def replaceAll (pat rep s : Str) : Str := replaceAllF pat rep s.length s

/-- Python str.split with a non-empty separator, leftmost first.  Fuel as
above. -/
def pySplitF (pat : Str) : Nat → Str → List Str
  | 0, s => [s]
  | _ + 1, [] => [[]]
  | fuel + 1, c :: cs =>
    if pat ≠ [] ∧ pat.isPrefixOf (c :: cs) then
      [] :: pySplitF pat fuel (List.drop pat.length (c :: cs))
    else
      match pySplitF pat fuel cs with
      | [] => [[c]]
      | p :: ps => (c :: p) :: ps

/-- Python str.split, fuelled by the scanned length. -/
def pySplit (pat s : Str) : List Str := pySplitF pat s.length s

/-- Python negative indexing `parts[-1]`: the last element of a non-empty
list (the empty default is unreachable because str.split never returns an
empty list). -/
def lastPart (l : List Str) : Str :=
  match l.getLast? with
  | some x => x
  | none => []

/-- A character stripped by the Python call strip with both quote kinds. -/
def isQuoteChar (c : Char) : Bool := c == dquote || c == squote

/-- Python strip with the two quote characters: drop them from both ends. -/
def stripQuoteChars (s : Str) : Str :=
  ((s.dropWhile isQuoteChar).reverse.dropWhile isQuoteChar).reverse

/-- Python dict.get with default empty string, for a response-header map
embedded as an association list (requests canonicalises header names; keys
are given already canonical). -/
def headersGet : List (Str × Str) → Str → Str
  | [], _ => []
  | (k, v) :: rest, key => if k = key then v else headersGet rest key

/-- A character admitted inside a URL scheme by the standard library
urlparse. -/
def schemeChar (c : Char) : Bool := c.isAlphanum || c == '+' || c == '-' || c == '.'

/-- Modelled from the Python standard library call urlparse: remove a
leading `scheme:` when the part before the first colon is a well-formed
scheme name. -/
def dropUrlScheme (s : Str) : Str :=
  let pre := s.takeWhile (fun c => !(c == ':'))
  if pre.length < s.length ∧ pre ≠ [] ∧ pre.all schemeChar ∧ (pre.headD ' ').isAlpha then
    s.drop (pre.length + 1)
  else s

/-- Modelled from the Python standard library call urlparse: skip a
`//netloc` part, which extends to the next slash or question mark. -/
def afterNetloc : Str → Str
  | '/' :: '/' :: rest => rest.dropWhile (fun c => !(c == '/') && !(c == '?'))
  | s => s

/-- Modelled from the Python standard library call urlsplit: the scheme it
recognises and removes, lowercased, or empty when the URL carries none. -/
def urlScheme (s : Str) : Str :=
  let pre := s.takeWhile (fun c => !(c == ':'))
  if pre.length < s.length ∧ pre ≠ [] ∧ pre.all schemeChar ∧ (pre.headD ' ').isAlpha then
    pre.map Char.toLower
  else []

/-- Modelled from the Python standard library: the schemes for which
urlparse splits a parameters part off the path (the uses_params list,
which contains the empty scheme). -/
def uses_params : List Str :=
  [str "", str "ftp", str "hdl", str "prospero", str "http", str "imap", str "https",
   str "shttp", str "rtsp", str "rtspu", str "sip", str "sips", str "mms", str "sftp",
   str "tel"]

/-- Modelled from the Python standard library helper _splitparams: when the
path holds a slash, cut at the first semicolon at or after the last slash
(no cut when that segment has none); otherwise cut at the first semicolon. -/
def splitParamsPath (path : Str) : Str :=
  if path.contains '/' then
    let seg := (path.reverse.takeWhile (fun c => !(c == '/'))).reverse
    if seg.contains ';' then
      path.take (path.length - seg.length) ++ seg.takeWhile (fun c => !(c == ';'))
    else path
  else path.takeWhile (fun c => !(c == ';'))

/-- Modelled from the Python standard library: `urlparse(url).path` — the
fragment is cut at the first hash sign, the scheme and network location
are removed, the path ends at the query, and for a scheme of the
uses_params list a `;parameters` part of the last segment is split off the
path. -/
def urlparsePath (url : Str) : Str :=
  let noFrag := url.takeWhile (fun c => !(c == '#'))
  let scheme := urlScheme noFrag
  let path := (afterNetloc (dropUrlScheme noFrag)).takeWhile (fun c => !(c == '?'))
  if scheme ∈ uses_params ∧ path.contains ';' then splitParamsPath path else path

/-- Value of one hexadecimal digit. -/
def hexDigitVal (c : Char) : Option Nat :=
  if '0' ≤ c ∧ c ≤ '9' then some (c.toNat - '0'.toNat)
  else if 'a' ≤ c ∧ c ≤ 'f' then some (c.toNat - 'a'.toNat + 10)
  else if 'A' ≤ c ∧ c ≤ 'F' then some (c.toNat - 'A'.toNat + 10)
  else none

/-- The Unicode replacement character produced by the replace error
handler of the UTF-8 decoder. -/
def replChar : Char := Char.ofNat 65533

/-- A UTF-8 continuation byte. -/
def isContByte (b : Nat) : Bool := decide (128 ≤ b ∧ b ≤ 191)

/-- Admissible first continuation byte after a multi-byte lead, with the
lead-specific ranges that exclude overlong encodings, surrogates and
values past U+10FFFF (as the CPython UTF-8 decoder checks them). -/
def utf8Cont1Ok (lead b1 : Nat) : Bool :=
  if lead = 224 then decide (160 ≤ b1 ∧ b1 ≤ 191)
  else if lead = 237 then decide (128 ≤ b1 ∧ b1 ≤ 159)
  else if lead = 240 then decide (144 ≤ b1 ∧ b1 ≤ 191)
  else if lead = 244 then decide (128 ≤ b1 ∧ b1 ≤ 143)
  else isContByte b1

/-- Modelled from the Python standard library: bytes.decode with utf-8 and
the replace error handler, as the CPython decoder implements it — each
maximal subpart of an ill-formed sequence (a rejected lead, a stray
continuation, or a valid prefix cut short) becomes one replacement
character, and decoding resumes at the offending byte. -/
def utf8DecodeReplace : List Nat → Str
  | [] => []
  | b :: rest =>
    if b < 128 then Char.ofNat b :: utf8DecodeReplace rest
    else if 194 ≤ b ∧ b ≤ 223 then
      match rest with
      | [] => [replChar]
      | b1 :: rest1 =>
        if isContByte b1 then
          Char.ofNat ((b - 192) * 64 + (b1 - 128)) :: utf8DecodeReplace rest1
        else replChar :: utf8DecodeReplace (b1 :: rest1)
    else if 224 ≤ b ∧ b ≤ 239 then
      match rest with
      | [] => [replChar]
      | b1 :: rest1 =>
        if utf8Cont1Ok b b1 then
          match rest1 with
          | [] => [replChar]
          | b2 :: rest2 =>
            if isContByte b2 then
              Char.ofNat ((b - 224) * 4096 + (b1 - 128) * 64 + (b2 - 128))
                :: utf8DecodeReplace rest2
            else replChar :: utf8DecodeReplace (b2 :: rest2)
        else replChar :: utf8DecodeReplace (b1 :: rest1)
    else if 240 ≤ b ∧ b ≤ 244 then
      match rest with
      | [] => [replChar]
      | b1 :: rest1 =>
        if utf8Cont1Ok b b1 then
          match rest1 with
          | [] => [replChar]
          | b2 :: rest2 =>
            if isContByte b2 then
              match rest2 with
              | [] => [replChar]
              | b3 :: rest3 =>
                if isContByte b3 then
                  Char.ofNat ((b - 240) * 262144 + (b1 - 128) * 4096 + (b2 - 128) * 64
                      + (b3 - 128))
                    :: utf8DecodeReplace rest3
                else replChar :: utf8DecodeReplace (b3 :: rest3)
            else replChar :: utf8DecodeReplace (b2 :: rest2)
        else replChar :: utf8DecodeReplace (b1 :: rest1)
    else replChar :: utf8DecodeReplace rest

/-- The maximal run of percent escapes at the head of the string: the
decoded byte values and the remainder after the run. -/
def escapeRun : Str → List Nat × Str
  | '%' :: a :: b :: rest =>
    match hexDigitVal a, hexDigitVal b with
    | some x, some y =>
      let pr := escapeRun rest
      ((16 * x + y) :: pr.1, pr.2)
    | _, _ => ([], '%' :: a :: b :: rest)
  | s => ([], s)

/-- Modelled from the Python standard library call unquote (encoding utf-8,
errors replace): literal characters pass through, a percent sign not
followed by two hex digits is literal, and each maximal run of percent
escapes is decoded as a UTF-8 byte sequence with replacement.  Decoding
runs of escapes separately agrees with the ascii-run decoding of the
library because literal ASCII bytes never join a multi-byte sequence.
Fuel as above: each step consumes at least one character. -/
def pyUnquoteF : Nat → Str → Str
  | 0, s => s
  | _ + 1, [] => []
  | fuel + 1, '%' :: a :: b :: rest =>
    match hexDigitVal a, hexDigitVal b with
    | some x, some y =>
      let pr := escapeRun rest
      utf8DecodeReplace ((16 * x + y) :: pr.1) ++ pyUnquoteF fuel pr.2
    | _, _ => '%' :: pyUnquoteF fuel (a :: b :: rest)
  | fuel + 1, c :: cs => c :: pyUnquoteF fuel cs

/-- Python unquote, fuelled by the scanned length. -/
def pyUnquote (s : Str) : Str := pyUnquoteF s.length s

/-- os.path.basename on a posix path: everything after the last slash. -/
def pyBasename (p : Str) : Str :=
  (p.reverse.takeWhile (fun c => !(c == '/'))).reverse

/-- The fixed content-type table of _extract_filename (oss_client.py
lines 162-172), with dict.get default `.bin`. -/
def extMapLookup (ct : Str) : Str :=
  if ct = str "image/jpeg" then str ".jpg"
  else if ct = str "image/png" then str ".png"
  else if ct = str "image/gif" then str ".gif"
  else if ct = str "image/webp" then str ".webp"
  else if ct = str "application/pdf" then str ".pdf"
  else if ct = str "text/plain" then str ".txt"
  else if ct = str "text/html" then str ".html"
  else if ct = str "application/json" then str ".json"
  else str ".bin"

/-- OSSClient._extract_filename (oss_client.py lines 143-173): the
Content-Disposition attempt, then the decoded URL path basename when it
holds a dot, then the generated stem with a table-driven extension.  The
random uuid hex prefix of length 8 is passed in as `uuid8`. -/
def extract_filename (url : Str) (headers : List (Str × Str)) (uuid8 : Str) : Str :=
  let cd := headersGet headers (str "Content-Disposition")
  let fromUrlOrType :=
    let path := pyUnquote (urlparsePath url)
    let filename := pyBasename path
    if filename ≠ [] ∧ filename.contains '.' then filename
    else
      let content_type := headersGet headers (str "Content-Type")
      str "file_" ++ uuid8 ++ extMapLookup (content_type.takeWhile (fun c => !(c == ';')))
  if occurs (str "filename=") cd then
    let filename := stripQuoteChars (lastPart (pySplit (str "filename=") cd))
    if filename ≠ [] then filename else fromUrlOrType
  else fromUrlOrType

/-- Modelled from the spec, rule (a) of filename inference: the
Content-Disposition filename value when present and non-empty. -/
def cdFilename (headers : List (Str × Str)) : Option Str :=
  let cd := headersGet headers (str "Content-Disposition")
  if occurs (str "filename=") cd then
    let f := stripQuoteChars (lastPart (pySplit (str "filename=") cd))
    if f ≠ [] then some f else none
  else none

/-- Modelled from the spec, rule (b) of filename inference: the
percent-decoded last path segment of the URL when it holds a dot. -/
def urlFilename (url : Str) : Option Str :=
  let f := pyBasename (pyUnquote (urlparsePath url))
  if f ≠ [] ∧ f.contains '.' then some f else none

/-- Modelled from the spec, rule (c) of filename inference: a generated
unique stem combined with the table extension of the content type. -/
def typeFilename (headers : List (Str × Str)) (uuid8 : Str) : Str :=
  str "file_" ++ uuid8 ++
    extMapLookup ((headersGet headers (str "Content-Type")).takeWhile (fun c => !(c == ';')))

/-- Claim C7: filename inference follows exactly the order (a)
Content-Disposition filename when present and non-empty, (b) the
percent-decoded last path segment of the URL when it contains a dot, (c)
a generated unique stem with the extension of the fixed content-type
table (jpeg, png, gif, webp, pdf, txt, html, json), defaulting to .bin
for every content type outside the table. -/
theorem c7_filename_inference_order (url : Str) (headers : List (Str × Str)) (uuid8 : Str)
    (ct : Str)
    (hct : ct ∉ [str "image/jpeg", str "image/png", str "image/gif", str "image/webp",
      str "application/pdf", str "text/plain", str "text/html", str "application/json"]) :
    extract_filename url headers uuid8 =
      (match cdFilename headers with
       | some f => f
       | none =>
         match urlFilename url with
         | some f => f
         | none => typeFilename headers uuid8) ∧
    extMapLookup ct = str ".bin" ∧
    extMapLookup (str "image/jpeg") = str ".jpg" ∧
    extMapLookup (str "image/png") = str ".png" ∧
    extMapLookup (str "image/gif") = str ".gif" ∧
    extMapLookup (str "image/webp") = str ".webp" ∧
    extMapLookup (str "application/pdf") = str ".pdf" ∧
    extMapLookup (str "text/plain") = str ".txt" ∧
    extMapLookup (str "text/html") = str ".html" ∧
    extMapLookup (str "application/json") = str ".json" := by
  refine ⟨?_, ?_, by decide, by decide, by decide, by decide, by decide, by decide,
    by decide, by decide⟩
  · simp only [extract_filename, cdFilename, urlFilename, typeFilename]
    split_ifs <;> rfl
  · simp only [List.mem_cons, List.not_mem_nil, or_false, not_or] at hct
    obtain ⟨h1, h2, h3, h4, h5, h6, h7, h8⟩ := hct
    simp [extMapLookup, h1, h2, h3, h4, h5, h6, h7, h8]

/-- Witness for claim C7 at concrete inputs: a URL path segment with a
percent escape and a dot fires rule (b); a URL whose dot lives only in the
`;parameters` part of the last segment loses it to the urlparse params
split, so rule (c) fires with the default extension; a path segment with
multi-byte UTF-8 escapes decodes to the two CJK characters; and a content
type outside the table maps to .bin. -/
theorem c7_filename_inference_order_witness :
    extract_filename (str "http://x.com/files/report%20final.pdf") [] (str "abcd1234")
      = str "report final.pdf" ∧
    extract_filename (str "http://x.com/a;b.txt") [] (str "cafe0123")
      = str "file_cafe0123.bin" ∧
    extract_filename (str "http://x.com/%E4%B8%AD%E6%96%87.txt") [] (str "00000000")
      = str "中文.txt" ∧
    extMapLookup (str "video/mp4") = str ".bin" := by
  have h1 := c7_filename_inference_order (str "http://x.com/files/report%20final.pdf") []
    (str "abcd1234") (str "video/mp4") (by decide)
  have h2 := c7_filename_inference_order (str "http://x.com/a;b.txt") []
    (str "cafe0123") (str "video/mp4") (by decide)
  have h3 := c7_filename_inference_order (str "http://x.com/%E4%B8%AD%E6%96%87.txt") []
    (str "00000000") (str "video/mp4") (by decide)
  exact ⟨h1.1.trans (by decide), h2.1.trans (by decide), h3.1.trans (by decide), h1.2.1⟩

/-- os.path.splitext on a posix path (genericpath._splitext): split at the
last dot when it comes after the last slash and the name up to it is not
made only of dots. -/
def splitext (p : Str) : Str × Str :=
  let sepIndex : Int :=
    match (p.reverse.findIdx? (fun x => x == '/')) with
    | some i => (p.length : Int) - 1 - (i : Int)
    | none => -1
  let dotIndex : Int :=
    match (p.reverse.findIdx? (fun x => x == '.')) with
    | some i => (p.length : Int) - 1 - (i : Int)
    | none => -1
  if sepIndex < dotIndex then
    let stem := (p.drop (sepIndex + 1).toNat).take (dotIndex - sepIndex - 1).toNat
    if stem.all (fun c => c == '.') then (p, [])
    else (p.take dotIndex.toNat, p.drop dotIndex.toNat)
  else (p, [])

/-- The object-key derivation of upload_file (oss_client.py lines 48-52)
and upload_from_stream (lines 83-85): the f-string inserting an
underscore and the 8-character uuid hex slice between the stem and the
extension of the filename. -/
def upload_object_key (filename uuid8 : Str) : Str :=
  let name := (splitext filename).1
  let ext := (splitext filename).2
  name ++ ('_' :: uuid8) ++ ext

/-- Claim C8: the object key appends the 8-hex-character random suffix to
the base name before the extension, so two uploads of the same filename
with distinct suffixes get distinct keys, and distinct retrievable URLs
under any injective presigning of keys; on the filename test.txt the key
is the stem test, the suffix, and the extension .txt. -/
theorem c8_object_key_distinct (filename u1 u2 : Str) (presign : Str → Str)
    (h1 : u1.length = 8) (h2 : u2.length = 8) (hne : u1 ≠ u2)
    (hp : Function.Injective presign) :
    upload_object_key filename u1 ≠ upload_object_key filename u2 ∧
    presign (upload_object_key filename u1) ≠ presign (upload_object_key filename u2) ∧
    upload_object_key (str "test.txt") u1 = str "test_" ++ u1 ++ str ".txt" := by
  have hkey : upload_object_key filename u1 ≠ upload_object_key filename u2 := by
    intro heq
    simp only [upload_object_key, List.append_assoc, List.cons_append] at heq
    have h3 := (List.append_inj heq rfl).2
    have h4 : u1 ++ (splitext filename).2 = u2 ++ (splitext filename).2 :=
      (List.cons.inj h3).2
    exact hne (List.append_inj h4 (h1.trans h2.symm)).1
  exact ⟨hkey, hp.ne hkey, rfl⟩

/-- Witness for claim C8 at concrete inputs: two distinct 8-character
suffixes on the filename test.txt give distinct keys of the stated shape. -/
theorem c8_object_key_distinct_witness :
    upload_object_key (str "test.txt") (str "aaaa0000")
      ≠ upload_object_key (str "test.txt") (str "bbbb1111") ∧
    upload_object_key (str "test.txt") (str "aaaa0000") = str "test_aaaa0000.txt" := by
  have h := c8_object_key_distinct (str "test.txt") (str "aaaa0000") (str "bbbb1111") id
    (by decide) (by decide) (by decide) (fun a b hab => hab)
  exact ⟨h.1, h.2.2.trans (by decide)⟩

/-- The result dictionary yielded per URL by OSSClient.process_single_url
and convert_urls_streaming: the keys original, converted and status are
always present; message is present only on the skipped branch and error
only on the failed branches. -/
structure ConvResult where
  original : Str
  converted : Str
  status : Str
  message : Option Str
  error : Option Str
deriving DecidableEq

/-- Network activity of the fetch-and-upload capability, recorded so that
absence of calls is expressible. -/
inductive NetEvent
  | fetch (url : Str)
  | upload (key : Str)
deriving DecidableEq

/-- Outcome dictionary of OSSClient.download_and_upload: success with the
presigned url and object key, or failure with a message. -/
inductive DUResult
  | ok (url : Str) (object_key : Str)
  | err (msg : Str)
deriving DecidableEq

/-- OSSClient.process_single_url (oss_client.py lines 193-223).  The
fetch-and-upload pipeline `du` (download_and_upload with its network
back ends) is an opaque capability reporting the network events it
performed; the skip test is substring containment of the endpoint, and the
skip branch performs no call at all. -/
def process_single_url (endpoint : Str) (du : Str → DUResult × List NetEvent) (url : Str) :
    ConvResult × List NetEvent :=
  if occurs endpoint url then
    ({ original := url, converted := url, status := str "skipped",
       message := some (str "已是 OSS 地址"), error := none }, [])
  else
    match du url with
    | (DUResult.ok newUrl _, evs) =>
      ({ original := url, converted := newUrl, status := str "success",
         message := none, error := none }, evs)
    | (DUResult.err e, evs) =>
      ({ original := url, converted := url, status := str "failed",
         message := none, error := some e }, evs)

/-- Claim C4: a URL containing the storage endpoint identity string is
classified skipped with the already-a-storage-URL reason (the literal
message of the source, which the spec glosses as already a storage URL),
and the fetch-and-upload capability is never invoked: the result carries
zero network events whatever `du` would do. -/
theorem c4_skip_storage_url (endpoint url : Str) (du : Str → DUResult × List NetEvent)
    (h : occurs endpoint url = true) :
    process_single_url endpoint du url =
      ({ original := url, converted := url, status := str "skipped",
         message := some (str "已是 OSS 地址"), error := none }, []) := by
  simp [process_single_url, h]

/-- Witness for claim C4: the default endpoint and a URL under it; the
capability passed in would record a fetch, and none is recorded. -/
theorem c4_skip_storage_url_witness :
    occurs (str "http://nas2net.cn:4003") (str "http://nas2net.cn:4003/d/pic.png") = true ∧
    process_single_url (str "http://nas2net.cn:4003")
      (fun u => (DUResult.err (str "unreachable"), [NetEvent.fetch u]))
      (str "http://nas2net.cn:4003/d/pic.png") =
      ({ original := str "http://nas2net.cn:4003/d/pic.png",
         converted := str "http://nas2net.cn:4003/d/pic.png", status := str "skipped",
         message := some (str "已是 OSS 地址"), error := none }, []) :=
  ⟨by decide, c4_skip_storage_url _ _ _ (by decide)⟩

/-- OSSClient.convert_urls_streaming (oss_client.py lines 225-259).  The
worker may raise (Except.error carrying str(e)); the generator yields one
result per distinct URL in completion order, an arbitrary permutation
`order` of the extracted list, translating a raised exception into a
failed result dictionary for that URL. -/
def convert_urls_streaming (worker : Str → Except Str ConvResult) (order : List Str) :
    List ConvResult :=
  order.map (fun u =>
    match worker u with
    | Except.ok r => r
    | Except.error e =>
      { original := u, converted := u, status := str "failed",
        message := none, error := some e })

/-- Claim C5: over any completion order of the extracted URLs, an
exception escaping the per-URL worker is caught and yielded as a failed
result carrying the description, and every URL of the list still gets its
result yielded — the sequence has full length and contains the worker
result of every non-faulting URL. -/
theorem c5_worker_fault_isolated (text : Str) (worker : Str → Except Str ConvResult)
    (order : List Str) (hperm : order.Perm (extract_urls text)) :
    (convert_urls_streaming worker order).length = (extract_urls text).length ∧
    ∀ url, url ∈ extract_urls text →
      (∀ e, worker url = Except.error e →
        ({ original := url, converted := url, status := str "failed", message := none,
           error := some e } : ConvResult) ∈ convert_urls_streaming worker order) ∧
      (∀ res, worker url = Except.ok res → res ∈ convert_urls_streaming worker order) := by
  constructor
  · simp [convert_urls_streaming, hperm.length_eq]
  · intro url hu
    have hord : url ∈ order := hperm.mem_iff.mpr hu
    constructor
    · intro e he
      have h2 := List.mem_map_of_mem (fun u => match worker u with
        | Except.ok r => r
        | Except.error e =>
          { original := u, converted := u, status := str "failed",
            message := none, error := some e }) hord
      simp only [he] at h2
      exact h2
    · intro res hres
      have h2 := List.mem_map_of_mem (fun u => match worker u with
        | Except.ok r => r
        | Except.error e =>
          { original := u, converted := u, status := str "failed",
            message := none, error := some e }) hord
      simp only [hres] at h2
      exact h2

/-- Witness for claim C5: a text with two URLs, a worker that raises on the
first URL and returns a result on the second, in declaration order; the
fault appears as a failed result and the other result is still yielded. -/
theorem c5_worker_fault_isolated_witness :
    ({ original := str "http://a.com/1", converted := str "http://a.com/1",
       status := str "failed", message := none, error := some (str "boom") } : ConvResult)
      ∈ convert_urls_streaming
        (fun u =>
          if u = str "http://a.com/1" then Except.error (str "boom")
          else Except.ok { original := u, converted := u, status := str "skipped",
                           message := none, error := none })
        (extract_urls (str "go http://a.com/1 and http://b.com/2")) := by
  have h := c5_worker_fault_isolated (str "go http://a.com/1 and http://b.com/2")
    (fun u =>
      if u = str "http://a.com/1" then Except.error (str "boom")
      else Except.ok { original := u, converted := u, status := str "skipped",
                       message := none, error := none })
    (extract_urls (str "go http://a.com/1 and http://b.com/2")) (List.Perm.refl _)
  exact (h.2 (str "http://a.com/1") (by decide)).1 (str "boom") rfl

/-- One element of a task's urls list in the in-memory task store.  At
creation update_task stores the plain URL strings returned by
extract_urls; the runner's fold appends dictionary records with
original_url, oss_url, status and status_text keys.  Both shapes coexist
in the list, exactly as in the untyped Python data. -/
inductive UrlEntry
  | plain (url : Str)
  | record (original_url oss_url status status_text : Str)
deriving DecidableEq

/-- A task dictionary of app.py: urls, total, completed, converted_text. -/
structure Task where
  urls : List UrlEntry
  total : Nat
  completed : Nat
  converted_text : Str
deriving DecidableEq

/-- The in-memory tasks map of app.py (line 21), as an association list. -/
abbrev TaskStore := List (Str × Task)

/-- Dictionary lookup in the task store (tasks.get). -/
def lookupTask : TaskStore → Str → Option Task
  | [], _ => none
  | (k, t) :: rest, tid => if k = tid then some t else lookupTask rest tid

/-- Dictionary assignment in the task store: replace the binding of an
existing key in place, or append a new binding. -/
def storeSet : TaskStore → Str → Task → TaskStore
  | [], tid, t => [(tid, t)]
  | (k, u) :: rest, tid, t =>
    if k = tid then (k, t) :: rest else (k, u) :: storeSet rest tid t

theorem storeSet_keys (s : TaskStore) (tid : Str) (t : Task)
    (h : lookupTask s tid ≠ none) :
    (storeSet s tid t).map Prod.fst = s.map Prod.fst := by
  induction s with
  | nil => simp [lookupTask] at h
  | cons kv rest ih =>
    obtain ⟨k, u⟩ := kv
    by_cases hk : k = tid
    · simp [storeSet, hk]
    · have hrest : lookupTask rest tid ≠ none := by
        simpa [lookupTask, hk] using h
      simp [storeSet, hk, ih hrest]

/-- update_task (app.py lines 31-36) at the task-creation call site
(line 171): insert the default task dictionary when the id is new, then
assign urls, total and converted_text.  The urls value is the plain list
of URL strings returned by extract_urls — no per-URL records are built
here. -/
def update_task_create (store : TaskStore) (tid : Str) (urls : List Str) (total : Nat)
    (text : Str) : TaskStore :=
  let base :=
    match lookupTask store tid with
    | some t => t
    | none => { urls := [], total := 0, completed := 0, converted_text := [] }
  storeSet store tid
    { urls := urls.map UrlEntry.plain, total := total, completed := base.completed,
      converted_text := text }

/-- The response of the convert_url route (app.py lines 137-227):
a 400 rejection, the synchronous zero-URL answer, or the asynchronous
task-started answer. -/
inductive ConvertUrlResponse
  | badRequest (msg : Str)
  | okImmediate (task_id : Str) (total : Nat) (urls : List Str) (converted_text : Str)
  | okStarted (task_id : Str) (total : Nat) (urls : List Str) (converted_text : Str)
deriving DecidableEq

/-- Python str.strip with no argument: drop whitespace from both ends. -/
def pyStrip (s : Str) : Str :=
  ((s.dropWhile isSpaceChar).reverse.dropWhile isSpaceChar).reverse

/-- The convert_url route (app.py lines 137-227) up to the point where the
response is returned: reject a missing or blank text, answer immediately
with an empty task id when extraction finds nothing, otherwise create the
task record and return the started answer.  The fresh uuid is passed in as
`new_task_id`; the background runner has not run yet when the response is
produced, so the returned store is the store at response time. -/
def convert_url (store : TaskStore) (new_task_id : Str) (body : Option Str) :
    ConvertUrlResponse × TaskStore :=
  match body with
  | none => (ConvertUrlResponse.badRequest (str "请提供要转换的文本"), store)
  | some text =>
    if pyStrip text = [] then
      (ConvertUrlResponse.badRequest (str "文本不能为空"), store)
    else
      let urls := extract_urls text
      let total := urls.length
      if total = 0 then (ConvertUrlResponse.okImmediate [] 0 [] text, store)
      else
        (ConvertUrlResponse.okStarted new_task_id total urls text,
         update_task_create store new_task_id urls total text)

/-- The status to human-text dictionary of run_conversion (app.py
lines 182-186), with dict.get defaulting to the status itself. -/
def statusTextOf (status : Str) : Str :=
  if status = str "success" then str "转换成功"
  else if status = str "failed" then str "转换失败"
  else if status = str "skipped" then str "已是 OSS 地址"
  else status

/-- The record-scanning loop of run_conversion (app.py lines 197-204)
under the store lock: calling url_info.get on a plain string entry raises
AttributeError; on a dictionary record whose original_url matches, the
oss_url, status and status_text fields are assigned and the loop breaks.
Returns the updated entry list and the found flag. -/
def updateEntries (original oss status status_text : Str) :
    List UrlEntry → Except Str (List UrlEntry × Bool)
  | [] => Except.ok ([], false)
  | UrlEntry.plain _ :: _ => Except.error (str "AttributeError")
  | UrlEntry.record o c s st :: rest =>
    if o = original then
      Except.ok (UrlEntry.record o oss status status_text :: rest, true)
    else
      match updateEntries original oss status status_text rest with
      | Except.error e => Except.error e
      | Except.ok (rest2, found) => Except.ok (UrlEntry.record o c s st :: rest2, found)

/-- The completed recomputation of run_conversion (app.py line 213): count
the entries whose status is terminal; subscripting a plain string entry
with a string key raises TypeError. -/
def countTerminal : List UrlEntry → Except Str Nat
  | [] => Except.ok 0
  | UrlEntry.plain _ :: _ => Except.error (str "TypeError")
  | UrlEntry.record _ _ s _ :: rest =>
    match countTerminal rest with
    | Except.error e => Except.error e
    | Except.ok n =>
      Except.ok (if s = str "success" ∨ s = str "failed" ∨ s = str "skipped" then n + 1 else n)

/-- One iteration of the background runner loop of run_conversion (app.py
lines 178-214) on a yielded result: compute status_text, update the local
running text on success, then under the lock fetch the task (a fresh local
dictionary when the id is absent — in that case every mutation below lands
in the discarded local dictionary and the store is returned unchanged),
scan and update or append the URL record, recompute completed, and store
the running text.  A raised exception is Except.error: the loop dies and
the store keeps its value. -/
def run_conversion_step (text_state : Str) (store : TaskStore) (tid : Str) (r : ConvResult) :
    Except Str (Str × TaskStore) :=
  let status_text := statusTextOf r.status
  let new_text :=
    if r.status = str "success" then replaceAll r.original r.converted text_state
    else text_state
  match lookupTask store tid with
  | none => Except.ok (new_text, store)
  | some task =>
    match updateEntries r.original r.converted r.status status_text task.urls with
    | Except.error e => Except.error e
    | Except.ok (entries, found) =>
      let entries2 :=
        if found then entries
        else entries ++ [UrlEntry.record r.original r.converted r.status status_text]
      match countTerminal entries2 with
      | Except.error e => Except.error e
      | Except.ok comp =>
        Except.ok (new_text,
          storeSet store tid
            { urls := entries2, total := task.total, completed := comp,
              converted_text := new_text })

/-- Claim C6 counterexample: a whitespace-only text is a submitted text in
which extraction finds zero URLs, yet the route answers with the blank-text
rejection, not with the synchronous total-zero answer. -/
theorem c6_blank_text_rejected :
    extract_urls (str " ") = [] ∧
    convert_url [] (str "t0") (some (str " "))
      = (ConvertUrlResponse.badRequest (str "文本不能为空"), []) :=
  ⟨by decide, by decide⟩

/-- Claim C6 as amended: for every submitted text whose stripped form is
non-empty and in which extraction finds zero URLs, the route answers
synchronously with total zero and an empty task id, and the task store is
left unchanged. -/
theorem c6_zero_urls_no_task (store : TaskStore) (tid : Str) (text : Str)
    (h1 : pyStrip text ≠ []) (h2 : extract_urls text = []) :
    convert_url store tid (some text) = (ConvertUrlResponse.okImmediate [] 0 [] text, store) := by
  simp [convert_url, h1, h2]

/-- Witness for amended claim C6: a non-blank text with no URL. -/
theorem c6_zero_urls_no_task_witness :
    convert_url [] (str "t9") (some (str "hello"))
      = (ConvertUrlResponse.okImmediate [] 0 [] (str "hello"), []) :=
  c6_zero_urls_no_task [] (str "t9") (str "hello") (by decide) (by decide)

/-- Claim C10: a background runner step never adds a task id to the store.
When the folded task id is absent the step succeeds and returns the store
completely unchanged (every mutation lands in the discarded fresh local
dictionary), and any step that succeeds leaves the list of task ids of the
store exactly as it was. -/
theorem c10_runner_never_adds_task (text : Str) (store : TaskStore) (tid : Str)
    (r : ConvResult) :
    (lookupTask store tid = none →
      run_conversion_step text store tid r =
        Except.ok
          ((if r.status = str "success" then replaceAll r.original r.converted text
            else text), store)) ∧
    (∀ t2 store2, run_conversion_step text store tid r = Except.ok (t2, store2) →
      store2.map Prod.fst = store.map Prod.fst) := by
  constructor
  · intro h
    simp [run_conversion_step, h]
  · intro t2 store2 hstep
    cases hlook : lookupTask store tid with
    | none =>
      simp only [run_conversion_step, hlook] at hstep
      simp only [Except.ok.injEq, Prod.mk.injEq] at hstep
      rw [← hstep.2]
    | some task =>
      cases hupd : updateEntries r.original r.converted r.status (statusTextOf r.status)
          task.urls with
      | error e =>
        simp [run_conversion_step, hlook, hupd] at hstep
      | ok pr =>
        obtain ⟨entries, found⟩ := pr
        cases hcnt : countTerminal
            (if found then entries
             else entries ++ [UrlEntry.record r.original r.converted r.status
               (statusTextOf r.status)]) with
        | error e =>
          simp [run_conversion_step, hlook, hupd, hcnt] at hstep
        | ok comp =>
          simp only [run_conversion_step, hlook, hupd, hcnt, Except.ok.injEq,
            Prod.mk.injEq] at hstep
          rw [← hstep.2]
          refine storeSet_keys store tid _ ?_
          rw [hlook]
          exact fun hc => Option.noConfusion hc

/-- Witness for claim C10: folding a failed result for an absent task id
over the empty store succeeds and leaves the store empty. -/
theorem c10_runner_never_adds_task_witness :
    run_conversion_step (str "x") [] (str "t7")
      { original := str "http://q.com/1", converted := str "http://q.com/1",
        status := str "failed", message := none, error := some (str "boom") }
      = Except.ok (str "x", []) := by
  have h := (c10_runner_never_adds_task (str "x") [] (str "t7")
    { original := str "http://q.com/1", converted := str "http://q.com/1",
      status := str "failed", message := none, error := some (str "boom") }).1 (by decide)
  exact h.trans rfl

/-- Claim C1 evaluated at its failing input, a task whose single distinct
URL occurs twice in the text and converts successfully.  The first
conjunct shows the full-text replacement the runner computes on its local
running copy would indeed rewrite every occurrence; the second shows the
fold of that success result into the freshly created task raises
AttributeError (url_info.get on the plain string entries stored at
creation), so the store is never assigned; the third shows the task's
converted_text in the store at that moment is still the submitted text,
storage URL absent. -/
theorem c1_converted_text_never_updated :
    replaceAll (str "http://x.com/1.jpg") (str "http://oss/new")
      (str "a http://x.com/1.jpg b http://x.com/1.jpg c")
      = str "a http://oss/new b http://oss/new c" ∧
    run_conversion_step (str "a http://x.com/1.jpg b http://x.com/1.jpg c")
      (convert_url [] (str "t2")
        (some (str "a http://x.com/1.jpg b http://x.com/1.jpg c"))).2 (str "t2")
      { original := str "http://x.com/1.jpg", converted := str "http://oss/new",
        status := str "success", message := none, error := none }
      = Except.error (str "AttributeError") ∧
    (lookupTask
        (convert_url [] (str "t2")
          (some (str "a http://x.com/1.jpg b http://x.com/1.jpg c"))).2
        (str "t2")).map Task.converted_text
      = some (str "a http://x.com/1.jpg b http://x.com/1.jpg c") :=
  ⟨by decide, rfl, by decide⟩

/-- Claim C2 evaluated at its failing input.  The first conjunct shows the
task record created by the route holds plain URL strings — no URL record
with a pending status exists at creation, and completed is zero; the
second shows the only code that would move records to a terminal status
and recompute completed, the runner fold, raises AttributeError on its
first result, so completed never reaches total. -/
theorem c2_records_never_pending_fold_crashes :
    (convert_url [] (str "t1") (some (str "see http://a.com/x.jpg ok"))).2
      = [(str "t1",
          { urls := [UrlEntry.plain (str "http://a.com/x.jpg")], total := 1,
            completed := 0, converted_text := str "see http://a.com/x.jpg ok" })] ∧
    run_conversion_step (str "see http://a.com/x.jpg ok")
      (convert_url [] (str "t1") (some (str "see http://a.com/x.jpg ok"))).2 (str "t1")
      { original := str "http://a.com/x.jpg",
        converted := str "http://oss.example/x_ab12cd34.jpg",
        status := str "success", message := none, error := none }
      = Except.error (str "AttributeError") :=
  ⟨by decide, rfl⟩

/-- Claim C9 evaluated: the status-text dictionary of the runner agrees
with the fixed mapping (the source literals, which the spec glosses as
converted, conversion failed, already a storage URL), but folding a
skipped outcome into a freshly created task raises AttributeError before
any status_text is recorded on a URL record. -/
theorem c9_status_text_mapping_never_recorded :
    statusTextOf (str "success") = str "转换成功" ∧
    statusTextOf (str "failed") = str "转换失败" ∧
    statusTextOf (str "skipped") = str "已是 OSS 地址" ∧
    run_conversion_step (str "x http://nas2net.cn:4003/d/a.png")
      (convert_url [] (str "t3") (some (str "x http://nas2net.cn:4003/d/a.png"))).2
      (str "t3")
      { original := str "http://nas2net.cn:4003/d/a.png",
        converted := str "http://nas2net.cn:4003/d/a.png",
        status := str "skipped", message := some (str "已是 OSS 地址"), error := none }
      = Except.error (str "AttributeError") :=
  ⟨by decide, by decide, by decide, rfl⟩

end OssConverter
